import Mathlib

/-!
Verification of the Mnoda/Sina core (Record, RecordLoader, Document,
Relationship, Datum, File) against its JSON encode/decode contract.

The C++ sources under src/ provide `File.cpp`, `Document.hpp`,
`Relationship.hpp` and `Record_test.cpp`; the implementations of `Record`,
`RecordLoader`, `ID`, `Datum`, `JsonUtil` and `Document.cpp` are not present,
so those operations are modelled from the specification (each such definition
carries a doc comment starting `Modelled from the spec:`).  `File.cpp` is
embedded directly from the source.
-/

namespace Mnoda

/-- JSON values, mirroring `nlohmann::json`: null, boolean, number, string,
array, object.  Objects are association lists from keys to values (nlohmann
keeps keys unique; key order is irrelevant to every property proved here).
Numbers are modelled as rationals. -/
inductive Json where
  | null : Json
  | bool (b : Bool) : Json
  | num (q : ℚ) : Json
  | str (s : String) : Json
  | arr (elems : List Json) : Json
  | obj (fields : List (String × Json)) : Json

/-- `nlohmann::json::type_name()`: the name of the stored JSON type. -/
def Json.type_name : Json → String
  | .null => "null"
  | .bool _ => "boolean"
  | .num _ => "number"
  | .str _ => "string"
  | .arr _ => "array"
  | .obj _ => "object"

/-- `asJson.find(key)` on an object: look the key up; on any non-object the
find misses (nlohmann returns `end()`). -/
def Json.find : Json → String → Option Json
  | .obj fields, key => fields.lookup key
  | _, _ => none

/-- Range-based `for` over a `nlohmann::json` value: an array iterates its
elements, an object iterates its values, null is an empty range, and any
other primitive is a one-element range containing the value itself. -/
def Json.elements : Json → List Json
  | .null => []
  | .arr es => es
  | .obj fields => fields.map Prod.snd
  | v => [v]

/-- `is_string()`. -/
def Json.isString : Json → Bool
  | .str _ => true
  | _ => false

/-- `is_null()`. -/
def Json.isNull : Json → Bool
  | .null => true
  | _ => false

/-- The keys of a JSON object (empty for non-objects). -/
def Json.keys : Json → List String
  | .obj fields => fields.map Prod.fst
  | _ => []

/-- Replace the binding for `key` in an association list, or append it. -/
def setField : List (String × Json) → String → Json → List (String × Json)
  | [], key, v => [(key, v)]
  | (k1, v1) :: rest, key, v =>
      if k1 == key then (key, v) :: rest
      else (k1, v1) :: setField rest key v

/-- `j[key] = v` through a mutable reference, as nlohmann does it: a null
value becomes a one-key object, an object gets the key inserted or replaced.
(On other types nlohmann throws; no code path here does that.) -/
def Json.setKey : Json → String → Json → Json
  | .obj fields, key, v => .obj (setField fields key v)
  | .null, key, v => .obj [(key, v)]
  | j, _, _ => j

/-- A single-quote character, used in the error messages of `File.cpp`. -/
def sq : String := String.singleton (Char.ofNat 39)

/-- Decoding errors.  `File.cpp` throws `std::invalid_argument` with an
explicit message for a bad `tags` element; the JsonUtil helpers (modelled
from the spec) fail with `MissingField`/`InvalidFieldType` errors carrying
the field name, the enclosing type name and (for type errors) the offending
JSON type name. -/
inductive DecodeErr where
  | missingField (field enclosing : String) : DecodeErr
  | invalidFieldType (field enclosing actual : String) : DecodeErr
  | invalidArgument (msg : String) : DecodeErr
deriving DecidableEq

/-- Modelled from the spec: `JsonUtil::getRequiredString` — a required
string field; absent fails with `MissingField` naming the field and the
enclosing type. -/
def getRequiredString (key : String) (j : Json) (enclosing : String) :
    Except DecodeErr String :=
  match j.find key with
  | none => .error (.missingField key enclosing)
  | some (.str s) => .ok s
  | some v => .error (.invalidFieldType key enclosing v.type_name)

/-- Modelled from the spec: `JsonUtil::getOptionalString` — an optional
string field; absent yields the empty string. -/
def getOptionalString (key : String) (j : Json) (enclosing : String) :
    Except DecodeErr String :=
  match j.find key with
  | none => .ok ""
  | some (.str s) => .ok s
  | some v => .error (.invalidFieldType key enclosing v.type_name)

/-- The `std::invalid_argument` message built in `File.cpp` (and, per the
spec, identically for Datum) for a non-string `tags` element of JSON type
`tn`. -/
def tagsErrMsg (tn : String) : String :=
  "The optional field " ++ sq ++ "tags" ++ sq ++
    " must be an array of strings. Found " ++ sq ++ tn ++ sq ++ " instead."

/-- The `tags` loop of `File::File(nlohmann::json const &)`: each element
that is a string is appended; the first non-string element raises
`invalid_argument` with the message naming `tags` and the element's JSON
type name. -/
def decodeTags : List Json → Except DecodeErr (List String)
  | [] => .ok []
  | .str s :: rest => (decodeTags rest).map (s :: ·)
  | e :: _ => .error (.invalidArgument (tagsErrMsg e.type_name))

/-- `mnoda::File`: a URI with optional MIME type (empty when unset) and
tags. -/
structure File where
  uri : String
  mimeType : String
  tags : List String
deriving DecidableEq

/-- `File::File(nlohmann::json const &)`: `uri` required, `mimetype`
optional, then the `tags` value (when the key is present) is iterated by the
loop embedded in `decodeTags`. -/
def File.fromJson (j : Json) : Except DecodeErr File := do
  let u ← getRequiredString "uri" j "File"
  let m ← getOptionalString "mimetype" j "File"
  match j.find "tags" with
  | none => .ok ⟨u, m, []⟩
  | some tv => (decodeTags tv.elements).map (⟨u, m, ·⟩)

/-- `File::toJson`: always `uri`; `mimetype` when non-empty; `tags` when
non-empty. -/
def File.toJson (f : File) : Json :=
  .obj ([("uri", .str f.uri)]
    ++ (if f.mimeType.isEmpty then [] else [("mimetype", .str f.mimeType)])
    ++ (if f.tags.isEmpty then [] else [("tags", .arr (f.tags.map .str))]))

/-- `mnoda::IDType`: whether an identity is document-local or global. -/
inductive IDType where
  | Local : IDType
  | Global : IDType
deriving DecidableEq

/-- `mnoda::ID`: an identity value together with its kind.  Accessors in the
source are `getId()` / `getType()`. -/
structure ID where
  id : String
  idType : IDType
deriving DecidableEq

/-- Modelled from the spec: constructing an Identity from the JSON value
found under `id` / `local_id` — the value is taken as a string. -/
def idFromValue (v : Json) (kind : IDType) (key enclosing : String) :
    Except DecodeErr ID :=
  match v with
  | .str s => .ok ⟨s, kind⟩
  | other => .error (.invalidFieldType key enclosing other.type_name)

/-- The value of a `mnoda::Datum`: exactly a string or a number. -/
inductive DatumValue where
  | str (s : String) : DatumValue
  | num (q : ℚ) : DatumValue
deriving DecidableEq

/-- `mnoda::Datum`: a named scalar-or-string value with optional units and
tags (empty when unset). -/
structure Datum where
  name : String
  value : DatumValue
  units : String
  tags : List String
deriving DecidableEq

/-- Modelled from the spec: the Datum JSON constructor (`Datum.cpp` is not
under src/) — `name` required string; `value` required string or number;
`units` optional string; `tags` optional with the same per-element
validation as File. -/
def Datum.fromJson (j : Json) : Except DecodeErr Datum := do
  let n ← getRequiredString "name" j "Datum"
  let v ← match j.find "value" with
    | none => .error (.missingField "value" "Datum")
    | some (.str s) => .ok (DatumValue.str s)
    | some (.num q) => .ok (DatumValue.num q)
    | some other => .error (.invalidFieldType "value" "Datum" other.type_name)
  let u ← getOptionalString "units" j "Datum"
  match j.find "tags" with
  | none => .ok ⟨n, v, u, []⟩
  | some tv => (decodeTags tv.elements).map (⟨n, v, u, ·⟩)

/-- Encoding of a DatumValue back to JSON. -/
def DatumValue.toJson : DatumValue → Json
  | .str s => .str s
  | .num q => .num q

/-- Modelled from the spec: `Datum::toJson` — emit `name` and `value`; omit
`units` when empty; omit `tags` when the sequence is empty. -/
def Datum.toJson (d : Datum) : Json :=
  .obj ([("name", .str d.name), ("value", d.value.toJson)]
    ++ (if d.units.isEmpty then [] else [("units", .str d.units)])
    ++ (if d.tags.isEmpty then [] else [("tags", .arr (d.tags.map .str))]))

/-- Modelled from the spec: `mnoda::Record` — identity, type tag, ordered
data and files, and an arbitrary user-defined JSON value defaulting to
null. -/
structure Record where
  id : ID
  recType : String
  data : List Datum
  files : List File
  userDefined : Json

/-- The `Record(ID, type)` constructor: empty data and files, null
user-defined content. -/
def Record.mkBase (i : ID) (t : String) : Record := ⟨i, t, [], [], Json.null⟩

/-- Decode a (JSON) `data` array, element by element, propagating Datum
errors and preserving order. -/
def decodeData : List Json → Except DecodeErr (List Datum)
  | [] => .ok []
  | e :: rest => do
      let d ← Datum.fromJson e
      let ds ← decodeData rest
      .ok (d :: ds)

/-- Decode a (JSON) `files` array, element by element, propagating File
errors and preserving order. -/
def decodeFiles : List Json → Except DecodeErr (List File)
  | [] => .ok []
  | e :: rest => do
      let f ← File.fromJson e
      let fs ← decodeFiles rest
      .ok (f :: fs)

/-- Modelled from the spec: step 2 of the base Record constructor — the
identity comes from `id` (Global) when present, else from `local_id`
(Local), else decoding fails with a `MissingField` error naming the
identity field `id`. -/
def readIdentity (j : Json) : Except DecodeErr ID :=
  match j.find "id" with
  | some v => idFromValue v .Global "id" "record"
  | none =>
    match j.find "local_id" with
    | some v => idFromValue v .Local "local_id" "record"
    | none => .error (.missingField "id" "record")

/-- Modelled from the spec: step 3 — the optional `data` array, absent
meaning no data. -/
def readData (j : Json) : Except DecodeErr (List Datum) :=
  match j.find "data" with
  | none => .ok []
  | some dv => decodeData dv.elements

/-- Modelled from the spec: step 4 — the optional `files` array, absent
meaning no files. -/
def readFiles (j : Json) : Except DecodeErr (List File) :=
  match j.find "files" with
  | none => .ok []
  | some fv => decodeFiles fv.elements

/-- Modelled from the spec: the base `Record(nlohmann::json const &)`
constructor — (1) `type` required string; (2) identity (see
`readIdentity`); (3) optional `data`; (4) optional `files`; (5) optional
`user_defined`, defaulting to JSON null. -/
def Record.fromJson (j : Json) : Except DecodeErr Record := do
  let t ← getRequiredString "type" j "record"
  let ident ← readIdentity j
  let data ← readData j
  let files ← readFiles j
  .ok ⟨ident, t, data, files, (j.find "user_defined").getD Json.null⟩

/-- Modelled from the spec: `Record::toJson` — emit `type`; emit `id` XOR
`local_id` per the identity kind; `data` iff non-empty; `files` iff
non-empty; `user_defined` iff not null. -/
def Record.toJson (r : Record) : Json :=
  .obj ([("type", .str r.recType)]
    ++ (match r.id.idType with
        | .Global => [("id", .str r.id.id)]
        | .Local => [("local_id", .str r.id.id)])
    ++ (if r.data.isEmpty then [] else [("data", .arr (r.data.map Datum.toJson))])
    ++ (if r.files.isEmpty then [] else [("files", .arr (r.files.map File.toJson))])
    ++ (if r.userDefined.isNull then [] else [("user_defined", r.userDefined)]))

/-- `Record::getUserDefinedContent()`: the stored user-defined JSON value
(in C++ returned by mutable reference). -/
def Record.getUserDefinedContent (r : Record) : Json := r.userDefined

/-- Setting one key through the mutable reference returned by
`getUserDefinedContent()` (`record.getUserDefinedContent()[k] = v`),
modelled as the state transformer it induces on the Record. -/
def Record.setUserDefinedKey (r : Record) (k : String) (v : Json) : Record :=
  { r with userDefined := r.userDefined.setKey k v }

/-- Whether nlohmann allows `j[k] = v` on this value (null or object). -/
def Json.canSetKey : Json → Bool
  | .null => true
  | .obj _ => true
  | _ => false

/-- The result of `RecordLoader::load`: either a base `Record` (the
fallback path) or the result of a registered factory, which may be any
subtype — modelled as an opaque-to-the-core tagged payload. -/
inductive LoadedRecord where
  | base (r : Record) : LoadedRecord
  | custom (tag : String) (payload : Json) : LoadedRecord

/-- Modelled from the spec: a subtype serializes itself; the base case
delegates to `Record::toJson`.  Only the base case is exercised by the
properties below. -/
def LoadedRecord.toJson : LoadedRecord → Json
  | .base r => r.toJson
  | .custom _ payload => payload

/-- Modelled from the spec: `mnoda::RecordLoader` — a registry mapping
type-tag strings to factory functions.  Registration prepends and lookup
takes the first match, so re-registration overwrites (last write wins). -/
structure RecordLoader where
  factories : List (String × (Json → Except DecodeErr LoadedRecord))

/-- The default-constructed RecordLoader: no factories. -/
def RecordLoader.empty : RecordLoader := ⟨[]⟩

/-- Modelled from the spec: `addTypeLoader(tag, factory)` registers or
overwrites the factory for `tag`. -/
def RecordLoader.addTypeLoader (l : RecordLoader) (tag : String)
    (factory : Json → Except DecodeErr LoadedRecord) : RecordLoader :=
  ⟨(tag, factory) :: l.factories⟩

/-- Modelled from the spec: `canLoad(tag)` — membership test. -/
def RecordLoader.canLoad (l : RecordLoader) (tag : String) : Bool :=
  (l.factories.lookup tag).isSome

/-- Modelled from the spec: `load(json)` — read the required `type` field;
if a factory is registered for it, invoke the factory on the full JSON;
otherwise fall back to constructing a base Record from the same JSON. -/
def RecordLoader.load (l : RecordLoader) (j : Json) :
    Except DecodeErr LoadedRecord := do
  let t ← getRequiredString "type" j "record"
  match l.factories.lookup t with
  | some factory => factory j
  | none => (Record.fromJson j).map LoadedRecord.base

/-- `mnoda::Relationship`: an immutable subject–predicate–object triple. -/
structure Relationship where
  subject : ID
  predicate : String
  obj : ID

/-- Modelled from the spec: `Relationship::toJson` emits exactly the three
keys, each holding the Identity's string value. -/
def Relationship.toJson (r : Relationship) : Json :=
  .obj [("object", .str r.obj.id), ("predicate", .str r.predicate),
        ("subject", .str r.subject.id)]

/-- `mnoda::Document`: an ordered list of owned Records and an ordered list
of Relationships.  The default constructor leaves both empty. -/
structure Document where
  records : List LoadedRecord
  relationships : List Relationship

/-- `Document()`: the empty document. -/
def Document.empty : Document := ⟨[], []⟩

/-- Modelled from the spec: `Document::toJson` produces
`{"records": [...], "relationships": [...]}`, each array built by calling
`toJson()` on every owned element in sequence order (`Document.cpp` is not
under src/; the shape is also documented in `Document.hpp`). -/
def Document.toJson (d : Document) : Json :=
  .obj [("records", .arr (d.records.map LoadedRecord.toJson)),
        ("relationships", .arr (d.relationships.map Relationship.toJson))]

/-- Does the character list `needle` occur contiguously in `hay`?  Used to
state what an error message does and does not mention. -/
def startsWithCh : List Char → List Char → Bool
  | [], _ => true
  | _ :: _, [] => false
  | a :: as, b :: bs => a == b && startsWithCh as bs

/-- Substring occurrence on strings, via their character lists. -/
def hasSubList (needle : List Char) : List Char → Bool
  | [] => startsWithCh needle []
  | c :: rest => startsWithCh needle (c :: rest) || hasSubList needle rest

/-- `mentions msg part`: the message contains `part` as a substring. -/
def mentions (msg part : String) : Bool := hasSubList part.data msg.data

/-! ## Helper lemmas -/

/-- Inversion of a successful base-Record decode: the `type` read yielded
the record's type and the identity read yielded the record's identity. -/
theorem fromJson_inv {j : Json} {r : Record} (h : Record.fromJson j = .ok r) :
    getRequiredString "type" j "record" = .ok r.recType
    ∧ readIdentity j = .ok r.id := by
  unfold Record.fromJson at h
  cases ht : getRequiredString "type" j "record" <;> rw [ht] at h <;>
    simp only [bind, Except.bind] at h
  case error e => exact Except.noConfusion h
  case ok t =>
  cases hi : readIdentity j <;> rw [hi] at h
  case error e => exact Except.noConfusion h
  case ok i =>
  cases hd : readData j <;> rw [hd] at h
  case error e => exact Except.noConfusion h
  case ok ds =>
  cases hf : readFiles j <;> rw [hf] at h
  case error e => exact Except.noConfusion h
  case ok fs =>
  injection h with h
  subst h
  exact ⟨rfl, rfl⟩

/-- When `id` is present with a string value, the identity read is Global
with that value. -/
theorem readIdentity_global {j : Json} {v : String}
    (h : j.find "id" = some (.str v)) :
    readIdentity j = .ok ⟨v, .Global⟩ := by
  unfold readIdentity
  rw [h]
  rfl

/-- When `id` is absent and `local_id` is present with a string value, the
identity read is Local with that value. -/
theorem readIdentity_local {j : Json} {v : String}
    (hg : j.find "id" = none) (hl : j.find "local_id" = some (.str v)) :
    readIdentity j = .ok ⟨v, .Local⟩ := by
  unfold readIdentity
  rw [hg, hl]
  rfl

/-- When both identity keys are absent, the identity read fails with
`MissingField` on the identity field `id`. -/
theorem readIdentity_missing {j : Json}
    (hg : j.find "id" = none) (hl : j.find "local_id" = none) :
    readIdentity j = .error (.missingField "id" "record") := by
  unfold readIdentity
  rw [hg, hl]

/-- A Record with a Global identity encodes the identity under `id` and
emits no `local_id` key. -/
theorem toJson_find_global {r : Record} {v : String}
    (h : r.id = ⟨v, .Global⟩) :
    r.toJson.find "id" = some (.str v)
    ∧ r.toJson.find "local_id" = none := by
  unfold Record.toJson Json.find
  rw [h]
  cases hd : r.data.isEmpty <;> cases hf : r.files.isEmpty <;>
    cases hu : r.userDefined.isNull <;>
    simp [hd, hf, hu, List.lookup]

/-- A Record with a Local identity encodes the identity under `local_id`
and emits no `id` key. -/
theorem toJson_find_local {r : Record} {v : String}
    (h : r.id = ⟨v, .Local⟩) :
    r.toJson.find "local_id" = some (.str v)
    ∧ r.toJson.find "id" = none := by
  unfold Record.toJson Json.find
  rw [h]
  cases hd : r.data.isEmpty <;> cases hf : r.files.isEmpty <;>
    cases hu : r.userDefined.isNull <;>
    simp [hd, hf, hu, List.lookup]

/-- Looking up the key just set by `setField` yields the new value. -/
theorem lookup_setField (fs : List (String × Json)) (k : String) (v : Json) :
    List.lookup k (setField fs k v) = some v := by
  induction fs with
  | nil => simp [setField, List.lookup]
  | cons p rest ih =>
    obtain ⟨k1, v1⟩ := p
    unfold setField
    by_cases hk : k1 = k
    · subst hk
      simp [List.lookup]
    · simp [List.lookup, beq_false_of_ne hk, beq_false_of_ne (Ne.symm hk), ih]

/-- The `tags` loop fails, with the message naming `tags` and the offending
JSON type, exactly at the first non-string element. -/
theorem decodeTags_err {es : List Json} {e : Json}
    (he : es.find? (fun el => !el.isString) = some e) :
    decodeTags es = .error (.invalidArgument (tagsErrMsg e.type_name)) := by
  induction es with
  | nil => simp [List.find?] at he
  | cons a rest ih =>
    cases a with
    | str s =>
      rw [List.find?_cons_of_neg _ (by simp [Json.isString])] at he
      simp only [decodeTags, ih he]
      rfl
    | null =>
      rw [List.find?_cons_of_pos _ (by simp [Json.isString])] at he
      cases he
      rfl
    | bool b =>
      rw [List.find?_cons_of_pos _ (by simp [Json.isString])] at he
      cases he
      rfl
    | num q =>
      rw [List.find?_cons_of_pos _ (by simp [Json.isString])] at he
      cases he
      rfl
    | arr es2 =>
      rw [List.find?_cons_of_pos _ (by simp [Json.isString])] at he
      cases he
      rfl
    | obj fs2 =>
      rw [List.find?_cons_of_pos _ (by simp [Json.isString])] at he
      cases he
      rfl

/-! ## Claim theorems -/

/-- C1: for every JSON object whose `type` field is a string with no
registered factory, `RecordLoader.load` does not fail due to the unknown
tag: it behaves exactly as constructing a base Record from the same JSON,
and any base Record so constructed has `getType()` equal to the original
tag string. -/
theorem claim_C1_unknown_tag_fallback {l : RecordLoader} {j : Json}
    {g : String}
    (hfind : j.find "type" = some (.str g))
    (hno : l.canLoad g = false) :
    l.load j = (Record.fromJson j).map LoadedRecord.base
    ∧ ∀ r : Record, Record.fromJson j = .ok r → r.recType = g := by
  have hlk : l.factories.lookup g = none := by
    cases hlk2 : l.factories.lookup g
    · rfl
    · unfold RecordLoader.canLoad at hno
      rw [hlk2] at hno
      exact absurd hno (by simp)
  have hreq : getRequiredString "type" j "record" = .ok g := by
    unfold getRequiredString
    rw [hfind]
  constructor
  · unfold RecordLoader.load
    rw [hreq]
    simp only [bind, Except.bind, hlk]
  · intro r hr
    have hinv := (fromJson_inv hr).1
    rw [hreq] at hinv
    injection hinv with hinv
    exact hinv.symm

/-- Witness for C1 at the input of the `load_missingLoader` test: an empty
loader, JSON with `type` `unknownType`. -/
theorem claim_C1_unknown_tag_fallback_witness :
    RecordLoader.empty.load
        (Json.obj [("id", Json.str "the ID"), ("type", Json.str "unknownType")])
      = .ok (.base ⟨⟨"the ID", .Global⟩, "unknownType", [], [], Json.null⟩)
    ∧ (⟨⟨"the ID", .Global⟩, "unknownType", [], [], Json.null⟩ : Record).recType
      = "unknownType" := by
  have h := @claim_C1_unknown_tag_fallback RecordLoader.empty
    (Json.obj [("id", Json.str "the ID"), ("type", Json.str "unknownType")])
    "unknownType" rfl rfl
  exact ⟨h.1.trans rfl, h.2 _ rfl⟩

/-- C2 (amended): in the base Record constructor, when `type` is present
as a string: a present `id` yields a Global identity with that value; with
`id` absent, a present `local_id` yields a Local identity with that value;
with both absent, decoding fails with `MissingField` on the identity field
`id`.  (When `type` is itself absent, decoding instead fails with
`MissingField` naming `type`, since `type` is read first.) -/
theorem claim_C2_identity_rules {j : Json} {t : String}
    (htype : j.find "type" = some (.str t)) :
    (∀ (r : Record) (v : String), Record.fromJson j = .ok r →
        j.find "id" = some (.str v) → r.id = ⟨v, .Global⟩)
    ∧ (∀ (r : Record) (v : String), Record.fromJson j = .ok r →
        j.find "id" = none → j.find "local_id" = some (.str v) →
        r.id = ⟨v, .Local⟩)
    ∧ (j.find "id" = none → j.find "local_id" = none →
        Record.fromJson j = .error (.missingField "id" "record")) := by
  refine ⟨?_, ?_, ?_⟩
  · intro r v hr hid
    have hinv := (fromJson_inv hr).2
    rw [readIdentity_global hid] at hinv
    injection hinv with hinv
    exact hinv.symm
  · intro r v hr hg hl
    have hinv := (fromJson_inv hr).2
    rw [readIdentity_local hg hl] at hinv
    injection hinv with hinv
    exact hinv.symm
  · intro hg hl
    have hreq : getRequiredString "type" j "record" = .ok t := by
      unfold getRequiredString
      rw [htype]
    unfold Record.fromJson
    rw [hreq]
    simp only [bind, Except.bind]
    rw [readIdentity_missing hg hl]

/-- Counterexample to C2 as stated: on the empty JSON object, neither `id`
nor `local_id` is present, yet decoding fails with `MissingField` naming
`type` — not an identity field — because `type` is read before the
identity. -/
theorem claim_C2_identity_rules_counterexample :
    Record.fromJson (Json.obj []) = .error (.missingField "type" "record")
    ∧ "type" ≠ "id" ∧ "type" ≠ "local_id" :=
  ⟨rfl, by decide, by decide⟩

/-- Witness for C2 (amended) at the inputs of the Record identity tests. -/
theorem claim_C2_identity_rules_witness :
    Record.fromJson (Json.obj [("type", Json.str "my type")])
      = .error (.missingField "id" "record")
    ∧ (⟨⟨"the ID", .Global⟩, "my type", [], [], Json.null⟩ : Record).id
      = ⟨"the ID", .Global⟩
    ∧ (⟨⟨"the ID", .Local⟩, "my type", [], [], Json.null⟩ : Record).id
      = ⟨"the ID", .Local⟩ := by
  refine ⟨?_, ?_, ?_⟩
  · exact (@claim_C2_identity_rules (Json.obj [("type", Json.str "my type")])
      "my type" rfl).2.2 rfl rfl
  · exact (@claim_C2_identity_rules
      (Json.obj [("type", Json.str "my type"), ("id", Json.str "the ID")])
      "my type" rfl).1 _ "the ID" rfl rfl
  · exact (@claim_C2_identity_rules
      (Json.obj [("type", Json.str "my type"), ("local_id", Json.str "the ID")])
      "my type" rfl).2.1 _ "the ID" rfl rfl rfl

/-- C3: decoding a valid Record JSON carrying `id` (and no `local_id`) and
re-encoding yields `id` with the same value and no `local_id`; symmetric
for `local_id`. -/
theorem claim_C3_identity_roundtrip {a b : Json} {r1 r2 : Record}
    {v w : String}
    (h1 : Record.fromJson a = .ok r1)
    (hga : a.find "id" = some (.str v))
    (_hla : a.find "local_id" = none)
    (h2 : Record.fromJson b = .ok r2)
    (hgb : b.find "id" = none)
    (hlb : b.find "local_id" = some (.str w)) :
    (r1.toJson.find "id" = some (.str v) ∧ r1.toJson.find "local_id" = none)
    ∧ (r2.toJson.find "local_id" = some (.str w)
        ∧ r2.toJson.find "id" = none) := by
  have e1 : r1.id = ⟨v, .Global⟩ := by
    have hinv := (fromJson_inv h1).2
    rw [readIdentity_global hga] at hinv
    injection hinv with hinv
    exact hinv.symm
  have e2 : r2.id = ⟨w, .Local⟩ := by
    have hinv := (fromJson_inv h2).2
    rw [readIdentity_local hgb hlb] at hinv
    injection hinv with hinv
    exact hinv.symm
  exact ⟨toJson_find_global e1, toJson_find_local e2⟩

/-- Witness for C3: a global-id and a local-id Record JSON, decoded and
re-encoded. -/
theorem claim_C3_identity_roundtrip_witness :
    ((⟨⟨"gv", .Global⟩, "t", [], [], Json.null⟩ : Record).toJson.find "id"
        = some (Json.str "gv")
      ∧ (⟨⟨"gv", .Global⟩, "t", [], [], Json.null⟩ : Record).toJson.find
          "local_id" = none)
    ∧ ((⟨⟨"lv", .Local⟩, "t", [], [], Json.null⟩ : Record).toJson.find
          "local_id" = some (Json.str "lv")
      ∧ (⟨⟨"lv", .Local⟩, "t", [], [], Json.null⟩ : Record).toJson.find "id"
          = none) :=
  @claim_C3_identity_roundtrip
    (Json.obj [("type", Json.str "t"), ("id", Json.str "gv")])
    (Json.obj [("type", Json.str "t"), ("local_id", Json.str "lv")])
    ⟨⟨"gv", .Global⟩, "t", [], [], Json.null⟩
    ⟨⟨"lv", .Local⟩, "t", [], [], Json.null⟩
    "gv" "lv" rfl rfl rfl rfl rfl rfl

/-- C4: a JSON object lacking `type` never decodes to a base Record; the
constructor fails with `MissingField` naming `type`. -/
theorem claim_C4_missing_type {j : Json} (h : j.find "type" = none) :
    Record.fromJson j = .error (.missingField "type" "record") := by
  have hreq : getRequiredString "type" j "record"
      = .error (.missingField "type" "record") := by
    unfold getRequiredString
    rw [h]
  unfold Record.fromJson
  rw [hreq]
  rfl

/-- Witness for C4 at the input of the `create_typeMissing` test. -/
theorem claim_C4_missing_type_witness :
    Record.fromJson (Json.obj [("local_id", Json.str "the ID")])
      = .error (.missingField "type" "record") :=
  @claim_C4_missing_type (Json.obj [("local_id", Json.str "the ID")]) rfl

/-- C5: after `addTypeLoader(tag, factory)`, `canLoad(tag)` holds and
`load` on JSON whose `type` equals that tag returns exactly the factory's
result. -/
theorem claim_C5_registered_factory {l : RecordLoader} {g : String}
    {f : Json → Except DecodeErr LoadedRecord} {j : Json}
    (h : j.find "type" = some (.str g)) :
    (l.addTypeLoader g f).canLoad g = true
    ∧ (l.addTypeLoader g f).load j = f j := by
  constructor
  · simp [RecordLoader.canLoad, RecordLoader.addTypeLoader, List.lookup]
  · have hreq : getRequiredString "type" j "record" = .ok g := by
      unfold getRequiredString
      rw [h]
    unfold RecordLoader.load
    rw [hreq]
    simp only [bind, Except.bind, RecordLoader.addTypeLoader]
    simp [List.lookup]

/-- Witness for C5 at the input of the `load_loaderPresent` test, with a
factory returning a non-base (subtype-modelling) result: `load` returns the
factory's result, not a base Record. -/
theorem claim_C5_registered_factory_witness :
    (RecordLoader.empty.addTypeLoader "TestString"
        fun v => .ok (.custom "TestString" v)).canLoad "TestString" = true
    ∧ (RecordLoader.empty.addTypeLoader "TestString"
        fun v => .ok (.custom "TestString" v)).load
        (Json.obj [("id", Json.str "the ID"), ("type", Json.str "TestString"),
          ("value", Json.str "The value")])
      = .ok (.custom "TestString"
          (Json.obj [("id", Json.str "the ID"), ("type", Json.str "TestString"),
            ("value", Json.str "The value")])) := by
  have h := @claim_C5_registered_factory RecordLoader.empty "TestString"
    (fun v => .ok (.custom "TestString" v))
    (Json.obj [("id", Json.str "the ID"), ("type", Json.str "TestString"),
      ("value", Json.str "The value")]) rfl
  exact ⟨h.1, h.2.trans rfl⟩

/-- C6 (amended): decoding a File JSON whose `tags` holds a non-string
element fails with an invalid-argument error whose message names the field
(`tags`) and the offending JSON type encountered — but, contrary to the
claim, not the enclosing type name (see the counterexample). -/
theorem claim_C6_bad_tag_element {j tv e : Json} {u m : String}
    (hu : getRequiredString "uri" j "File" = .ok u)
    (hm : getOptionalString "mimetype" j "File" = .ok m)
    (ht : j.find "tags" = some tv)
    (he : tv.elements.find? (fun el => !el.isString) = some e) :
    File.fromJson j = .error (.invalidArgument (tagsErrMsg e.type_name))
    ∧ mentions (tagsErrMsg e.type_name) "tags" = true
    ∧ mentions (tagsErrMsg e.type_name) e.type_name = true := by
  refine ⟨?_, ?_, ?_⟩
  · unfold File.fromJson
    rw [hu]
    simp only [bind, Except.bind]
    rw [hm]
    simp only [bind, Except.bind, ht]
    rw [decodeTags_err he]
    rfl
  · have hp := List.find?_some he
    cases e with
    | str s => simp [Json.isString] at hp
    | null => decide
    | bool b =>
      show mentions (tagsErrMsg "boolean") "tags" = true
      decide
    | num q =>
      show mentions (tagsErrMsg "number") "tags" = true
      decide
    | arr es =>
      show mentions (tagsErrMsg "array") "tags" = true
      decide
    | obj fs =>
      show mentions (tagsErrMsg "object") "tags" = true
      decide
  · have hp := List.find?_some he
    cases e with
    | str s => simp [Json.isString] at hp
    | null => decide
    | bool b =>
      show mentions (tagsErrMsg "boolean") "boolean" = true
      decide
    | num q =>
      show mentions (tagsErrMsg "number") "number" = true
      decide
    | arr es =>
      show mentions (tagsErrMsg "array") "array" = true
      decide
    | obj fs =>
      show mentions (tagsErrMsg "object") "object" = true
      decide

/-- Counterexample to C6 as stated: on `{"uri":"u","tags":[3]}` the error
message built by `File.cpp` is exactly `tagsErrMsg "number"` — it names
`tags` and the offending type `number` but nowhere contains the enclosing
type name `File`. -/
theorem claim_C6_bad_tag_element_counterexample :
    File.fromJson (Json.obj [("uri", Json.str "u"), ("tags", Json.arr [Json.num 3])])
      = .error (.invalidArgument (tagsErrMsg "number"))
    ∧ mentions (tagsErrMsg "number") "File" = false :=
  ⟨rfl, by decide⟩

/-- Witness for C6 (amended) at the concrete input `{"uri":"u","tags":[3]}`. -/
theorem claim_C6_bad_tag_element_witness :
    File.fromJson (Json.obj [("uri", Json.str "u"), ("tags", Json.arr [Json.num 3])])
      = .error (.invalidArgument (tagsErrMsg "number"))
    ∧ mentions (tagsErrMsg "number") "tags" = true
    ∧ mentions (tagsErrMsg "number") "number" = true :=
  @claim_C6_bad_tag_element
    (Json.obj [("uri", Json.str "u"), ("tags", Json.arr [Json.num 3])])
    (Json.arr [Json.num 3]) (Json.num 3) "u" "" rfl rfl rfl rfl

/-- C7: `File::toJson` always emits `uri`; emits `mimetype` exactly when
the stored MIME type is non-empty (with that value); emits `tags` exactly
when the tag sequence is non-empty (with those values); and emits no other
keys. -/
theorem claim_C7_file_encoding_keys (f : File) :
    f.toJson.find "uri" = some (.str f.uri)
    ∧ f.toJson.find "mimetype"
        = (if f.mimeType.isEmpty then none else some (.str f.mimeType))
    ∧ f.toJson.find "tags"
        = (if f.tags.isEmpty then none else some (.arr (f.tags.map .str)))
    ∧ (f.toJson.keys.all fun k => k == "uri" || k == "mimetype" || k == "tags")
      = true := by
  obtain ⟨u, m, ts⟩ := f
  cases hm : m.isEmpty <;> cases ht : ts.isEmpty <;>
    simp [File.toJson, Json.find, Json.keys, hm, ht, List.lookup]

/-- C8: the user-defined content of a Record freshly built from
`(Identity, type)` is JSON null, and setting a key through the mutable
view returned by `getUserDefinedContent()` is visible in a subsequent read
while leaving the identity, type, data and files untouched. -/
theorem claim_C8_user_defined_view {r : Record} (i : ID) (t k : String)
    (v : Json)
    (h : r.getUserDefinedContent.canSetKey = true) :
    (Record.mkBase i t).getUserDefinedContent = Json.null
    ∧ (r.setUserDefinedKey k v).getUserDefinedContent.find k = some v
    ∧ (r.setUserDefinedKey k v).id = r.id
    ∧ (r.setUserDefinedKey k v).recType = r.recType
    ∧ (r.setUserDefinedKey k v).data = r.data
    ∧ (r.setUserDefinedKey k v).files = r.files := by
  refine ⟨rfl, ?_, rfl, rfl, rfl, rfl⟩
  unfold Record.setUserDefinedKey Record.getUserDefinedContent Json.setKey
  unfold Record.getUserDefinedContent Json.canSetKey at h
  cases hc : r.userDefined <;> rw [hc] at h
  case null => simp [Json.find, List.lookup]
  case obj fs => simp [Json.find, lookup_setField]
  case bool b => exact absurd h (by simp)
  case num q => exact absurd h (by simp)
  case str s => exact absurd h (by simp)
  case arr es => exact absurd h (by simp)

/-- Witness for C8 at the input of the `getUserDefined_initialNonConst`
test: a fresh Record, setting key `foo` to `123` through the view. -/
theorem claim_C8_user_defined_view_witness :
    (Record.mkBase ⟨"the id", .Local⟩ "my type").getUserDefinedContent
      = Json.null
    ∧ ((Record.mkBase ⟨"the id", .Local⟩ "my type").setUserDefinedKey "foo"
        (Json.num 123)).getUserDefinedContent.find "foo" = some (Json.num 123)
    ∧ ((Record.mkBase ⟨"the id", .Local⟩ "my type").setUserDefinedKey "foo"
        (Json.num 123)).id = (Record.mkBase ⟨"the id", .Local⟩ "my type").id
    ∧ ((Record.mkBase ⟨"the id", .Local⟩ "my type").setUserDefinedKey "foo"
        (Json.num 123)).recType
      = (Record.mkBase ⟨"the id", .Local⟩ "my type").recType
    ∧ ((Record.mkBase ⟨"the id", .Local⟩ "my type").setUserDefinedKey "foo"
        (Json.num 123)).data
      = (Record.mkBase ⟨"the id", .Local⟩ "my type").data
    ∧ ((Record.mkBase ⟨"the id", .Local⟩ "my type").setUserDefinedKey "foo"
        (Json.num 123)).files
      = (Record.mkBase ⟨"the id", .Local⟩ "my type").files :=
  @claim_C8_user_defined_view (Record.mkBase ⟨"the id", .Local⟩ "my type")
    ⟨"the id", .Local⟩ "my type" "foo" (Json.num 123) rfl

/-- C9: a default-constructed Document encodes to exactly
`{"records":[],"relationships":[]}`. -/
theorem claim_C9_empty_document :
    Document.empty.toJson
      = Json.obj [("records", Json.arr []), ("relationships", Json.arr [])] :=
  rfl

/-- C10: a File JSON whose `tags` key holds a single JSON string (not an
array) decodes without failing, to a File whose tag list is exactly the
one-element sequence containing that string — the decoder iterates the
`tags` value without first checking that it is an array. -/
theorem claim_C10_tags_single_string {j : Json} {u m s : String}
    (hu : getRequiredString "uri" j "File" = .ok u)
    (hm : getOptionalString "mimetype" j "File" = .ok m)
    (ht : j.find "tags" = some (.str s)) :
    File.fromJson j = .ok ⟨u, m, [s]⟩ := by
  unfold File.fromJson
  rw [hu]
  simp only [bind, Except.bind]
  rw [hm]
  simp only [bind, Except.bind]
  rw [ht]
  rfl

/-- Witness for C10 at the concrete input `{"uri":"u","tags":"s"}`. -/
theorem claim_C10_tags_single_string_witness :
    File.fromJson (Json.obj [("uri", Json.str "u"), ("tags", Json.str "s")])
      = .ok ⟨"u", "", ["s"]⟩ :=
  @claim_C10_tags_single_string
    (Json.obj [("uri", Json.str "u"), ("tags", Json.str "s")])
    "u" "" "s" rfl rfl rfl

end Mnoda
